import Mathlib

/-!
# oCIS runtime launcher, account resolver and thumbnail handler

A shallow embedding of

* `ocis/pkg/runtime/runtime.go` (`Runtime.Launch`, `RunService`, the service catalog),
* `pkg/middleware/account_uuid.go` (`getAccount`, the `AccountUUID` handler),
* `pkg/service/v0/service.go` (`Thumbnail.GetThumbnail`, `usernameFromAuthorization`),

followed by theorems about them.  Side effects (dialling, sleeping, printing,
RPC calls, process termination) are recorded as an event trace; the outside world
(dial outcomes, supervisor replies, the process environment) is an explicit
argument.
-/

namespace Ocis

/-! ## `ocis/pkg/runtime/runtime.go` -/

namespace runtime

/-- Modelled from the spec: the request type `process.ProcEntry` of
`github.com/refs/pman/pkg/process` is not part of the sources; the spec gives
the request as `{serviceName, environment : sequence of "KEY=VALUE" strings, args}`. -/
structure ProcEntry where
  Extension : String
  Env : List String
  Args : List String
  deriving DecidableEq, Repr

/-- Modelled from the spec: `process.NewProcEntry(extension, env, args...)` is not part of
the sources; per the spec a descriptor is the record of its name, its arguments and
its environment snapshot. -/
def NewProcEntry (extension : String) (env : List String) (args : List String) : ProcEntry :=
  { Extension := extension, Env := env, Args := args }

/-- The package-level variables read by `Launch` (runtime.go:20-67). -/
structure Globals where
  MicroServices : List String
  Extensions : List String
  dependants : List String
  maxRetries : Nat
  deriving DecidableEq, Repr

/-- Catalog `MicroServices` (runtime.go:25-29). -/
def MicroServices : List String := ["api", "web", "registry"]

/-- Catalog `Extensions` (runtime.go:32-57). -/
def Extensions : List String :=
  [ "proxy", "store", "settings", "phoenix", "graph", "graph-explorer", "ocs", "webdav",
    "storage-frontend", "storage-gateway", "storage-users", "storage-auth-basic",
    "storage-auth-bearer", "storage-storage-home", "storage-storage-home-data",
    "storage-storage-eos", "storage-storage-eos-data", "storage-storage-oc",
    "storage-storage-oc-data", "storage-storage-public-link", "storage-storage-metadata",
    "glauth", "konnectd", "thumbnails" ]

/-- Catalog `dependants` (runtime.go:60-63). -/
def dependants : List String := ["accounts", "storage-sharing"]

/-- Variable `maxRetries` (runtime.go:66). -/
def maxRetries : Nat := 10

/-- The package-level variables with the values the source gives them. -/
def shipped : Globals :=
  { MicroServices := MicroServices, Extensions := Extensions,
    dependants := dependants, maxRetries := maxRetries }

/-- `type Runtime struct{}` (runtime.go:70): a record without fields. -/
structure Runtime where
  deriving DecidableEq, Repr

/-- `func New() Runtime` (runtime.go:73-75). -/
def New : Runtime := {}

/-- What the process does that can be seen from outside, in program order. -/
inductive Event where
  /-- `rpc.DialHTTP("tcp", "localhost:10666")` -/
  | dial
  /-- `fmt.Println(msg)` -/
  | println (msg : String)
  /-- `time.Sleep(seconds * time.Second)` -/
  | sleep (seconds : Nat)
  /-- `RunService(client, service)` issuing `client.Call("Service.Start", args, &reply)` -/
  | start (service : String) (args : ProcEntry)
  /-- `golog.Fatal(msg)`: logs and exits the process -/
  | fatal (msg : String)
  deriving DecidableEq, Repr

/-- The world `Launch` runs against.
* `dial n`: whether the `n`-th `rpc.DialHTTP` of a run (counted from 0) returns `err == nil`;
* `environ n`: what `os.Environ()` returns in the `n`-th `RunService` of a run;
* `call n`: what the `n`-th `client.Call` of a run delivers, an error text or the reply. -/
structure World where
  dial : Nat → Bool
  environ : Nat → List String
  call : Nat → Except String Int

/-- How a function ended: it returned, or the process was terminated by `golog.Fatal`. -/
inductive Outcome (α : Type) where
  | returned (a : α)
  | fatal
  deriving DecidableEq, Repr

/-- The events of a run and how it ended. -/
structure Run (α : Type) where
  trace : List Event
  outcome : Outcome α
  deriving DecidableEq, Repr

/-- The three events of one failed round of the loop (runtime.go:93-97). -/
def retryEvents : List Event :=
  [Event.dial, Event.println "runtime not available, retrying in 1 second...", Event.sleep 1]

/-- The text of the fatal message of the connection loop (runtime.go:91). -/
def noConnection : String := "could not get a connection to rpc runtime on localhost:10666"

/-- The `for` loop of `Launch` (runtime.go:89-101) from a state with counter `try`.
Every failed dial increments `try`, so the dial made with counter `try` is the
`try`-th dial of the run.  Returns `()` at `goto OUT`. -/
def connectLoop (maxRetries : Nat) (dial : Nat → Bool) (try_ : Nat) : Run Unit :=
  if h : try_ ≥ maxRetries then
    { trace := [Event.fatal noConnection], outcome := Outcome.fatal }
  else if dial try_ then
    { trace := [Event.dial], outcome := Outcome.returned () }
  else
    let rest := connectLoop maxRetries dial (try_ + 1)
    { trace := retryEvents ++ rest.trace, outcome := rest.outcome }
termination_by maxRetries - try_
decreasing_by omega

/-- `func RunService(client, service) int` (runtime.go:125-133), as the `n`-th
`RunService` of the run. -/
def RunService (w : World) (n : Nat) (service : String) : Run Int :=
  let args := NewProcEntry service (w.environ n) [service]
  match w.call n with
  | Except.error err =>
    { trace := [Event.start service args, Event.fatal err], outcome := Outcome.fatal }
  | Except.ok reply =>
    { trace := [Event.start service args], outcome := Outcome.returned reply }

/-- A `for _, v := range services { RunService(client, v) }` loop (runtime.go:104-106,
108-110, 118-120); `n` is the number of `RunService` calls made before it.
On normal completion it returns the number of calls made so far. -/
def runAll (w : World) : List String → Nat → Run Nat
  | [], n => { trace := [], outcome := Outcome.returned n }
  | v :: vs, n =>
    match RunService w n v with
    | { trace := t, outcome := Outcome.fatal } => { trace := t, outcome := Outcome.fatal }
    | { trace := t, outcome := Outcome.returned _ } =>
      let rest := runAll w vs (n + 1)
      { trace := t ++ rest.trace, outcome := rest.outcome }

/-- The body of `Launch` from label `OUT` on (runtime.go:103-122). -/
def startTiers (g : Globals) (w : World) : Run Unit :=
  match runAll w g.MicroServices 0 with
  | { trace := t1, outcome := Outcome.fatal } => { trace := t1, outcome := Outcome.fatal }
  | { trace := t1, outcome := Outcome.returned n1 } =>
    match runAll w g.Extensions n1 with
    | { trace := t2, outcome := Outcome.fatal } =>
      { trace := t1 ++ t2, outcome := Outcome.fatal }
    | { trace := t2, outcome := Outcome.returned n2 } =>
      if g.dependants.length > 0 then
        match runAll w g.dependants n2 with
        | { trace := t3, outcome := Outcome.fatal } =>
          { trace := t1 ++ t2 ++ Event.sleep 2 :: t3, outcome := Outcome.fatal }
        | { trace := t3, outcome := Outcome.returned _ } =>
          { trace := t1 ++ t2 ++ Event.sleep 2 :: t3, outcome := Outcome.returned () }
      else
        { trace := t1 ++ t2, outcome := Outcome.returned () }

/-- `func (r *Runtime) Launch()` (runtime.go:84-122).  `try` is a local variable,
declared at runtime.go:87 and therefore zero when the loop is entered. -/
def Launch (g : Globals) (_r : Runtime) (w : World) : Run Unit :=
  match connectLoop g.maxRetries w.dial 0 with
  | { trace := t0, outcome := Outcome.fatal } => { trace := t0, outcome := Outcome.fatal }
  | { trace := t0, outcome := Outcome.returned _ } =>
    let rest := startTiers g w
    { trace := t0 ++ rest.trace, outcome := rest.outcome }

/-- Number of `rpc.DialHTTP` calls in a trace. -/
def dials (t : List Event) : Nat := t.count Event.dial

/-- Number of `time.Sleep(seconds * time.Second)` calls in a trace. -/
def sleeps (seconds : Nat) (t : List Event) : Nat := t.count (Event.sleep seconds)

/-- Number of `golog.Fatal` calls in a trace. -/
def fatals (t : List Event) : Nat :=
  (t.filter fun e => match e with | Event.fatal _ => true | _ => false).length

/-- The service names passed to `RunService`, in order. -/
def startNames (t : List Event) : List String :=
  t.filterMap fun e => match e with | Event.start s _ => some s | _ => none

/-- The requests sent with `Service.Start`, in order. -/
def startArgs (t : List Event) : List ProcEntry :=
  t.filterMap fun e => match e with | Event.start _ a => some a | _ => none

/-- The events of `j` failed rounds of the connection loop. -/
def rounds : Nat → List Event
  | 0 => []
  | j + 1 => retryEvents ++ rounds j

/-- The `Service.Start` events of starting `services` one after the other, the first
of them being call number `n` of the run. -/
def starts (w : World) : List String → Nat → List Event
  | [], _ => []
  | v :: vs, n => Event.start v (NewProcEntry v (w.environ n) [v]) :: starts w vs (n + 1)

/-- The total order of the catalog: platform, then extensions, then dependents. -/
def catalog (g : Globals) : List String := g.MicroServices ++ g.Extensions ++ g.dependants

/-- The events of `Launch` after the connection loop up to and including its `k`-th
`Service.Start`: the first `k` catalog entries in order, with the settle delay in front of
the first dependent. -/
def issued (g : Globals) (w : World) (k : Nat) : List Event :=
  starts w ((g.MicroServices ++ g.Extensions).take k) 0 ++
    (if (g.MicroServices ++ g.Extensions).length < k then
      Event.sleep 2 ::
        starts w (g.dependants.take (k - (g.MicroServices ++ g.Extensions).length))
          (g.MicroServices ++ g.Extensions).length
    else [])

/-- Whether an event is a `Service.Start` call or a fatal exit. -/
def isStartOrFatal : Event → Bool
  | Event.start _ _ => true
  | Event.fatal _ => true
  | _ => false

/-- The error of the `n`-th `client.Call` of a run, when it fails. -/
def callError (w : World) (n : Nat) : Option String :=
  match w.call n with
  | Except.error err => some err
  | Except.ok _ => none

/-- A world whose first `f` dials fail and whose later dials succeed; the environment is
empty and every start call is answered with 0. -/
def worldAfter (f : Nat) : World :=
  { dial := fun n => decide (f ≤ n), environ := fun _ => [], call := fun _ => Except.ok 0 }

/-- A world whose dials succeed and whose start call number `j` (from 0) fails, the others
being answered with 0. -/
def worldFailingAt (j : Nat) : World :=
  { dial := fun _ => true, environ := fun _ => ["HOME=/root"],
    call := fun n => if n = j then Except.error "start failed" else Except.ok 0 }

end runtime

/-! ## `pkg/middleware/account_uuid.go` -/

namespace middleware

/-- The fields of `acc.Account` that the source reads (account_uuid.go:142-147); the type is
declared in `github.com/owncloud/ocis-accounts/pkg/proto/v0`. -/
structure Account where
  Id : String
  PreferredName : String
  DisplayName : String
  Mail : String
  ExternalUserState : String
  deriving DecidableEq, Repr

/-- The field of `ocisoidc.StandardClaims` that the source reads. -/
structure StandardClaims where
  Email : String
  deriving DecidableEq, Repr

/-- The request `acc.ListAccountsRequest` (account_uuid.go:63-66). -/
structure ListAccountsRequest where
  Query : String
  PageSize : Int
  deriving DecidableEq, Repr

/-- The dynamic value `entry.V` of a cache entry, of type `interface{}`: an `acc.Account`
or a value of some other type. -/
inductive CacheValue where
  | account (a : Account)
  | other (typeName : String)
  deriving DecidableEq, Repr

/-- What `getAccount` calls: the package cache `svcCache` with its key `AccountsKey` (both
declared outside the sources at hand) and the accounts service `ac`.
* `cacheGet key email`: `svcCache.Get(key, email)`, an error or the entry's value;
* `listAccounts req`: `ac.ListAccounts(ctx, req)`, an error or the accounts that
  `resp.Accounts` points to (no nil pointer among them);
* `cacheSet key email a`: `svcCache.Set(key, email, a)`, an error or nothing. -/
structure Services where
  AccountsKey : String
  cacheGet : String → String → Except String CacheValue
  listAccounts : ListAccountsRequest → Except String (List Account)
  cacheSet : String → String → Account → Except String Unit

/-- `http.StatusInternalServerError`. -/
def StatusInternalServerError : Int := 500

/-- `http.StatusNotFound`. -/
def StatusNotFound : Int := 404

/-- `http.StatusForbidden`. -/
def StatusForbidden : Int := 403

/-- `strings.ReplaceAll(s, "'", "''")` on the characters of `s`: every apostrophe
(character 39) is doubled. -/
def doubleQuotes : List Char → List Char
  | [] => []
  | c :: cs => if c = Char.ofNat 39 then c :: c :: doubleQuotes cs else c :: doubleQuotes cs

/-- `fmt.Sprintf("mail eq '%s'", strings.ReplaceAll(email, "'", "''"))`
(account_uuid.go:64). -/
def mailQuery (email : String) : String :=
  String.mk ("mail eq ".data ++ Char.ofNat 39 :: doubleQuotes email.data ++ [Char.ofNat 39])

/-- The named results `(account *acc.Account, status int)` of `getAccount`; `none` is the
nil pointer. -/
structure Lookup where
  account : Option Account
  status : Int
  deriving DecidableEq, Repr

/-- `func getAccount(l, claims, ac) (account *acc.Account, status int)`
(account_uuid.go:59-105); log output is left out. -/
def getAccount (sv : Services) (claims : StandardClaims) : Lookup :=
  match sv.cacheGet sv.AccountsKey claims.Email with
  | Except.error _ =>
    match sv.listAccounts { Query := mailQuery claims.Email, PageSize := 2 } with
    | Except.error _ => { account := none, status := StatusInternalServerError }
    | Except.ok accounts =>
      if h0 : accounts.length ≤ 0 then
        { account := none, status := StatusNotFound }
      else if accounts.length > 1 then
        { account := none, status := StatusForbidden }
      else
        match sv.cacheSet sv.AccountsKey claims.Email (accounts.get ⟨0, by omega⟩) with
        | Except.error _ => { account := none, status := StatusInternalServerError }
        | Except.ok _ => { account := some (accounts.get ⟨0, by omega⟩), status := 0 }
  | Except.ok entry =>
    match entry with
    | CacheValue.account a => { account := some a, status := 0 }
    | CacheValue.other _ => { account := none, status := StatusInternalServerError }

/-- The `revauser.User` that the handler passes to `MintToken` (account_uuid.go:140-149). -/
structure User where
  OpaqueId : String
  Username : String
  DisplayName : String
  Mail : String
  MailVerified : Bool
  deriving DecidableEq, Repr

/-- What the handler of `AccountUUID` does with a request. -/
inductive Response where
  /-- `next.ServeHTTP(w, r)`, with the header `x-access-token` when a token was minted -/
  | next (accessToken : Option String)
  /-- `w.WriteHeader(status)` -/
  | writeHeader (status : Int)
  /-- a run-time panic: nil pointer dereference at `account.Id` -/
  | nilDereference
  deriving DecidableEq, Repr

/-- The handler that `AccountUUID` returns (account_uuid.go:122-159): `claims` is `none`
when the request context holds no `ocisoidc.StandardClaims`; `mintToken` is
`tokenManager.MintToken`. -/
def AccountUUID (sv : Services) (mintToken : User → Except String String)
    (claims : Option StandardClaims) : Response :=
  match claims with
  | none => Response.next none
  | some c =>
    let res := getAccount sv c
    if res.status ≠ 0 then
      Response.writeHeader res.status
    else
      match res.account with
      | none => Response.nilDereference
      | some account =>
        match mintToken
          { OpaqueId := account.Id,
            Username := account.PreferredName,
            DisplayName := account.DisplayName,
            Mail := account.Mail,
            MailVerified :=
              account.ExternalUserState == "" || account.ExternalUserState == "Accepted" } with
        | Except.error _ => Response.writeHeader StatusInternalServerError
        | Except.ok token => Response.next (some token)

/-- An account used in examples. -/
def alice : Account :=
  { Id := "4c510ada", PreferredName := "alice", DisplayName := "Alice",
    Mail := "alice@example.org", ExternalUserState := "" }

/-- Services whose cache get fails, whose accounts service finds `alice` alone and whose
cache set succeeds. -/
def coldCache : Services :=
  { AccountsKey := "accounts",
    cacheGet := fun _ _ => Except.error "not found",
    listAccounts := fun _ => Except.ok [alice],
    cacheSet := fun _ _ _ => Except.ok () }

/-- As `coldCache`, with a cache set that fails. -/
def brokenCache : Services :=
  { AccountsKey := "accounts",
    cacheGet := fun _ _ => Except.error "not found",
    listAccounts := fun _ => Except.ok [alice],
    cacheSet := fun _ _ _ => Except.error "cache is full" }

end middleware

/-! ## `pkg/service/v0/service.go` -/

namespace svc

/-- A Go `string` or `[]byte` whose bytes matter: `len` and slicing count bytes. -/
abbrev Bytes := List UInt8

/-- A decoded JSON value as `encoding/json` stores it in an `interface{}`. -/
inductive JSON where
  | null
  | bool (b : Bool)
  | number (literal : String)
  | string (s : String)
  | array (items : List JSON)
  | object (fields : List (String × JSON))

/-- The fields of `v0proto.GetRequest` that the handler reads; `Filetype` is the value of
`req.Filetype.String()`. -/
structure GetRequest where
  Filetype : String
  Width : Int
  Height : Int
  Filepath : String
  Etag : String
  Authorization : Bytes

/-- The request `thumbnail.Request` built at service.go:63-69, over the types `Resolution`
and `Encoder` of the thumbnail library. -/
structure ThumbnailRequest (Resolution Encoder : Type) where
  Resolution : Resolution
  ImagePath : String
  Encoder : Encoder
  ETag : String
  Username : String

/-- What `GetThumbnail` calls, all of it declared outside the sources at hand.
* `encoderForType`: `thumbnail.EncoderForType`, `none` for the nil encoder;
* `mimeType`: `Encoder.MimeType`;
* `closestMatch`: `g.resolutions.ClosestMatch`;
* `parseSigned`: `jwt.ParseSigned`, an error or the token;
* `claims`: `token.UnsafeClaimsWithoutVerification(&claims)`, an error or the map it
  leaves in `claims`;
* `getStored`: `g.manager.GetStored`, `none` for a nil slice;
* `sourceGet`: `g.source.Get` with the authorization in its context, an error or the
  image, `none` for a nil image;
* `managerGet`: `g.manager.Get`. -/
structure Deps (Resolution Encoder Token Image : Type) where
  encoderForType : String → Option Encoder
  mimeType : Encoder → String
  closestMatch : Int → Int → Resolution
  parseSigned : Bytes → Except String Token
  claims : Token → Except String (List (String × JSON))
  getStored : ThumbnailRequest Resolution Encoder → Option Bytes
  sourceGet : Bytes → String → Except String (Option Image)
  managerGet : ThumbnailRequest Resolution Encoder → Image → Except String Bytes

/-- How a call ends: with a value, with a returned `error`, or with a run-time panic. -/
inductive Outcome (α : Type) where
  | ok (a : α)
  | error (msg : String)
  | panic (msg : String)
  deriving DecidableEq, Repr

/-- What `GetThumbnail` leaves in the response `rsp` when it returns nil. -/
structure GetResponse where
  Thumbnail : Bytes
  Mimetype : String
  deriving DecidableEq, Repr

/-- The bytes of `"Bearer "`. -/
def bearerPrefix : Bytes := [66, 101, 97, 114, 101, 114, 32]

/-- The type assertion `v.(map[string]interface{})` on a map entry `v`, `none` for a
missing key: it panics unless the value is an object. -/
def assertObject : Option JSON → Outcome (List (String × JSON))
  | some (JSON.object fields) => Outcome.ok fields
  | _ => Outcome.panic "interface conversion: interface {} is not map[string]interface {}"

/-- The type assertion `v.(string)` on a map entry `v`. -/
def assertString : Option JSON → Outcome String
  | some (JSON.string s) => Outcome.ok s
  | _ => Outcome.panic "interface conversion: interface {} is not string"

/-- `func usernameFromAuthorization(auth string) (string, error)` (service.go:96-113). -/
def usernameFromAuthorization {Resolution Encoder Token Image : Type}
    (d : Deps Resolution Encoder Token Image) (auth : Bytes) : Outcome String :=
  if auth.length < bearerPrefix.length then
    Outcome.panic "slice bounds out of range"
  else
    let tokenString := auth.drop bearerPrefix.length
    match d.parseSigned tokenString with
    | Except.error err => Outcome.error ("could not parse auth token: " ++ err)
    | Except.ok token =>
      match d.claims token with
      | Except.error err => Outcome.error ("could not get claims from auth token: " ++ err)
      | Except.ok claims =>
        match assertObject (claims.lookup "kc.identity") with
        | Outcome.panic msg => Outcome.panic msg
        | Outcome.error msg => Outcome.error msg
        | Outcome.ok identityMap =>
          match assertString (identityMap.lookup "kc.i.un") with
          | Outcome.panic msg => Outcome.panic msg
          | Outcome.error msg => Outcome.error msg
          | Outcome.ok username => Outcome.ok username

/-- `func (g Thumbnail) GetThumbnail(ctx, req, rsp) error` (service.go:47-94). -/
def GetThumbnail {Resolution Encoder Token Image : Type}
    (d : Deps Resolution Encoder Token Image) (req : GetRequest) : Outcome GetResponse :=
  match d.encoderForType req.Filetype with
  | none =>
    Outcome.error ("can't be encoded. filetype " ++ req.Filetype ++ " not supported")
  | some encoder =>
    let r := d.closestMatch req.Width req.Height
    let auth := req.Authorization
    if auth = [] then
      Outcome.error "authorization is missing"
    else
      match usernameFromAuthorization d auth with
      | Outcome.panic msg => Outcome.panic msg
      | Outcome.error msg => Outcome.error msg
      | Outcome.ok username =>
        let tr : ThumbnailRequest Resolution Encoder :=
          { Resolution := r, ImagePath := req.Filepath, Encoder := encoder,
            ETag := req.Etag, Username := username }
        match d.getStored tr with
        | some thumbnail =>
          Outcome.ok { Thumbnail := thumbnail, Mimetype := d.mimeType tr.Encoder }
        | none =>
          match d.sourceGet auth tr.ImagePath with
          | Except.error err => Outcome.error err
          | Except.ok none => Outcome.error "could not retrieve image"
          | Except.ok (some img) =>
            match d.managerGet tr img with
            | Except.error err => Outcome.error err
            | Except.ok thumbnail =>
              Outcome.ok { Thumbnail := thumbnail, Mimetype := d.mimeType tr.Encoder }

/-- A service that encodes PNG, whose token parser accepts every token string and whose
tokens carry the claims `claims`. -/
def sampleDeps (claims : List (String × JSON)) : Deps Unit Unit Unit Unit :=
  { encoderForType := fun t => if t = "PNG" then some () else none,
    mimeType := fun _ => "image/png",
    closestMatch := fun _ _ => (),
    parseSigned := fun _ => Except.ok (),
    claims := fun _ => Except.ok claims,
    getStored := fun _ => some [137, 80, 78, 71],
    sourceGet := fun _ _ => Except.ok (some ()),
    managerGet := fun _ _ => Except.ok [137, 80, 78, 71] }

/-- A request for a PNG thumbnail with the authorization `auth`. -/
def pngRequest (auth : Bytes) : GetRequest :=
  { Filetype := "PNG", Width := 32, Height := 32, Filepath := "/images/a.png",
    Etag := "33a64df5", Authorization := auth }

end svc

namespace runtime

/-! ### The connection loop -/

theorem connectLoop_exhausted (N : Nat) (d : Nat → Bool) (t : Nat) (h : N ≤ t) :
    connectLoop N d t = { trace := [Event.fatal noConnection], outcome := Outcome.fatal } := by
  rw [connectLoop]
  simp [h]

theorem connectLoop_connected (N : Nat) (d : Nat → Bool) (t : Nat) (h : t < N)
    (hd : d t = true) :
    connectLoop N d t = { trace := [Event.dial], outcome := Outcome.returned () } := by
  rw [connectLoop]
  simp [Nat.not_le.mpr h, hd]

theorem connectLoop_retry (N : Nat) (d : Nat → Bool) (t : Nat) (h : t < N)
    (hd : d t = false) :
    connectLoop N d t =
      { trace := retryEvents ++ (connectLoop N d (t + 1)).trace,
        outcome := (connectLoop N d (t + 1)).outcome } := by
  rw [connectLoop]
  simp [Nat.not_le.mpr h, hd]

/-- After `j` failed dials from counter `t`, the loop is at counter `t + j`. -/
theorem connectLoop_failures (N : Nat) (d : Nat → Bool) (t j : Nat) (hj : t + j ≤ N)
    (hd : ∀ i, t ≤ i → i < t + j → d i = false) :
    connectLoop N d t =
      { trace := rounds j ++ (connectLoop N d (t + j)).trace,
        outcome := (connectLoop N d (t + j)).outcome } := by
  induction j generalizing t with
  | zero => simp [rounds]
  | succ j ih =>
    rw [connectLoop_retry N d t (by omega) (hd t (Nat.le_refl t) (by omega))]
    rw [ih (t + 1) (by omega) (fun i h1 h2 => hd i (by omega) (by omega))]
    simp [rounds, List.append_assoc, Nat.add_assoc, Nat.add_comm 1 j]

/-- The loop from counter `t`: it fails until some counter `j`, which is either the first
successful dial or `N`. -/
theorem connectLoop_cases (N : Nat) (d : Nat → Bool) (t : Nat) (ht : t ≤ N) :
    ∃ j, t ≤ j ∧ j ≤ N ∧ (∀ i, t ≤ i → i < j → d i = false) ∧
      ((j = N ∧ connectLoop N d t =
          { trace := rounds (j - t) ++ [Event.fatal noConnection], outcome := Outcome.fatal }) ∨
       (j < N ∧ d j = true ∧ connectLoop N d t =
          { trace := rounds (j - t) ++ [Event.dial], outcome := Outcome.returned () })) := by
  obtain ⟨m, hm⟩ : ∃ m, m = N - t := ⟨_, rfl⟩
  induction m generalizing t with
  | zero =>
    have : t = N := by omega
    subst this
    exact ⟨t, Nat.le_refl t, Nat.le_refl t, fun i h1 h2 => absurd h1 (by omega),
      Or.inl ⟨rfl, by simp [connectLoop_exhausted, rounds]⟩⟩
  | succ m ih =>
    have htN : t < N := by omega
    cases hd : d t with
    | true =>
      exact ⟨t, Nat.le_refl t, ht, fun i h1 h2 => absurd h1 (by omega),
        Or.inr ⟨htN, hd, by simp [connectLoop_connected N d t htN hd, rounds]⟩⟩
    | false =>
      obtain ⟨j, h1, h2, h3, h4⟩ := ih (t + 1) (by omega) (by omega)
      have hfail : ∀ i, t ≤ i → i < j → d i = false := by
        intro i hi1 hi2
        by_cases hit : i = t
        · rw [hit]; exact hd
        · exact h3 i (by omega) hi2
      have hsub : j - t = (j - (t + 1)) + 1 := by omega
      refine ⟨j, by omega, h2, hfail, ?_⟩
      rw [connectLoop_retry N d t htN hd]
      rcases h4 with ⟨e1, e2⟩ | ⟨e1, e2, e3⟩
      · exact Or.inl ⟨e1, by rw [e2, hsub]; simp [rounds, List.append_assoc]⟩
      · exact Or.inr ⟨e1, e2, by rw [e3, hsub]; simp [rounds, List.append_assoc]⟩

/-! ### Counting the events of a trace -/

theorem dials_append (a b : List Event) : dials (a ++ b) = dials a + dials b := by
  simp [dials]

theorem sleeps_append (s : Nat) (a b : List Event) :
    sleeps s (a ++ b) = sleeps s a + sleeps s b := by
  simp [sleeps]

theorem fatals_append (a b : List Event) : fatals (a ++ b) = fatals a + fatals b := by
  simp [fatals]

theorem startNames_append (a b : List Event) :
    startNames (a ++ b) = startNames a ++ startNames b := by
  simp [startNames]

theorem fatals_sleep_cons (s : Nat) (t : List Event) :
    fatals (Event.sleep s :: t) = fatals t := rfl

theorem fatals_dial_cons (t : List Event) : fatals (Event.dial :: t) = fatals t := rfl

theorem sleeps_sleep_cons (s : Nat) (t : List Event) :
    sleeps s (Event.sleep s :: t) = sleeps s t + 1 := by
  simp [sleeps]

theorem sleeps_dial_cons (s : Nat) (t : List Event) :
    sleeps s (Event.dial :: t) = sleeps s t := by
  simp [sleeps]

theorem dials_dial_cons (t : List Event) : dials (Event.dial :: t) = dials t + 1 := by
  simp [dials]

theorem startNames_dial_cons (t : List Event) :
    startNames (Event.dial :: t) = startNames t := rfl

theorem startNames_sleep_cons (s : Nat) (t : List Event) :
    startNames (Event.sleep s :: t) = startNames t := rfl

theorem dials_rounds (j : Nat) : dials (rounds j) = j := by
  induction j with
  | zero => rfl
  | succ j ih =>
    rw [rounds, dials_append, ih]
    simp [dials, retryEvents, Nat.add_comm]

theorem sleeps_one_rounds (j : Nat) : sleeps 1 (rounds j) = j := by
  induction j with
  | zero => rfl
  | succ j ih =>
    rw [rounds, sleeps_append, ih]
    simp [sleeps, retryEvents, Nat.add_comm]

theorem sleeps_two_rounds (j : Nat) : sleeps 2 (rounds j) = 0 := by
  induction j with
  | zero => rfl
  | succ j ih =>
    rw [rounds, sleeps_append, ih]
    simp [sleeps, retryEvents]

theorem fatals_rounds (j : Nat) : fatals (rounds j) = 0 := by
  induction j with
  | zero => rfl
  | succ j ih =>
    rw [rounds, fatals_append, ih]
    simp [fatals, retryEvents]

theorem startNames_rounds (j : Nat) : startNames (rounds j) = [] := by
  induction j with
  | zero => rfl
  | succ j ih =>
    rw [rounds, startNames_append, ih]
    simp [startNames, retryEvents]

theorem dials_starts (w : World) (vs : List String) (n : Nat) : dials (starts w vs n) = 0 := by
  induction vs generalizing n with
  | nil => rfl
  | cons v vs ih =>
    have h := ih (n + 1)
    simp only [dials] at h ⊢
    simp [starts, h]

theorem sleeps_starts (s : Nat) (w : World) (vs : List String) (n : Nat) :
    sleeps s (starts w vs n) = 0 := by
  induction vs generalizing n with
  | nil => rfl
  | cons v vs ih =>
    have h := ih (n + 1)
    simp only [sleeps] at h ⊢
    simp [starts, h]

theorem fatals_starts (w : World) (vs : List String) (n : Nat) : fatals (starts w vs n) = 0 := by
  induction vs generalizing n with
  | nil => rfl
  | cons v vs ih =>
    have h := ih (n + 1)
    simp only [fatals] at h ⊢
    simp [starts, h]

theorem startNames_starts (w : World) (vs : List String) (n : Nat) :
    startNames (starts w vs n) = vs := by
  induction vs generalizing n with
  | nil => rfl
  | cons v vs ih =>
    have h := ih (n + 1)
    simp only [startNames] at h ⊢
    simp [starts, h]

theorem starts_append (w : World) (as bs : List String) (n : Nat) :
    starts w (as ++ bs) n = starts w as n ++ starts w bs (n + as.length) := by
  induction as generalizing n with
  | nil => simp [starts]
  | cons a as ih =>
    simp [starts, ih (n + 1), Nat.add_assoc, Nat.add_comm 1 as.length]

/-! ### One tier -/

/-- A tier all of whose calls succeed is started completely. -/
theorem runAll_ok (w : World) (vs : List String) (n : Nat)
    (h : ∀ i, i < vs.length → ∃ r, w.call (n + i) = Except.ok r) :
    runAll w vs n = { trace := starts w vs n, outcome := Outcome.returned (n + vs.length) } := by
  induction vs generalizing n with
  | nil => simp [runAll, starts]
  | cons v vs ih =>
    obtain ⟨r, hr⟩ := h 0 (by simp)
    have hr0 : w.call n = Except.ok r := by simpa using hr
    have hrest : ∀ i, i < vs.length → ∃ r, w.call (n + 1 + i) = Except.ok r := by
      intro i hi
      have := h (i + 1) (by simp [hi])
      simpa [Nat.add_assoc, Nat.add_comm 1 i] using this
    simp [runAll, RunService, hr0, ih (n + 1) hrest, starts, Nat.add_assoc, Nat.add_comm 1]

/-- A tier whose call number `j` is the first to fail stops there. -/
theorem runAll_fail (w : World) (vs : List String) (n j : Nat) (e : String)
    (hj : j < vs.length)
    (h : ∀ i, i < j → ∃ r, w.call (n + i) = Except.ok r)
    (he : w.call (n + j) = Except.error e) :
    runAll w vs n =
      { trace := starts w (vs.take (j + 1)) n ++ [Event.fatal e], outcome := Outcome.fatal } := by
  induction vs generalizing n j with
  | nil => simp at hj
  | cons v vs ih =>
    cases j with
    | zero =>
      have he0 : w.call n = Except.error e := by simpa using he
      simp [runAll, RunService, he0, starts]
    | succ j =>
      obtain ⟨r, hr⟩ := h 0 (by omega)
      have hr0 : w.call n = Except.ok r := by simpa using hr
      have hrest : ∀ i, i < j → ∃ r, w.call (n + 1 + i) = Except.ok r := by
        intro i hi
        have := h (i + 1) (by omega)
        simpa [Nat.add_assoc, Nat.add_comm 1 i] using this
      have he1 : w.call (n + 1 + j) = Except.error e := by
        simpa [Nat.add_assoc, Nat.add_comm 1 j] using he
      have hj1 : j < vs.length := by simpa using hj
      simp [runAll, RunService, hr0, ih (n + 1) j hj1 hrest he1, starts]

/-! ### The three tiers -/

/-- When every start call succeeds, all three tiers are started. -/
theorem startTiers_ok (g : Globals) (w : World)
    (h : ∀ i, i < (catalog g).length → ∃ r, w.call i = Except.ok r) :
    startTiers g w =
      { trace := issued g w (catalog g).length, outcome := Outcome.returned () } := by
  have hlen : (catalog g).length =
      g.MicroServices.length + g.Extensions.length + g.dependants.length := by
    simp [catalog, Nat.add_assoc]
  have hfirst : (g.MicroServices ++ g.Extensions).length =
      g.MicroServices.length + g.Extensions.length := by simp
  have h1 := runAll_ok w g.MicroServices 0 (fun i hi => by
    simpa using h i (by omega))
  have h2 := runAll_ok w g.Extensions (0 + g.MicroServices.length) (fun i hi => by
    simpa using h (g.MicroServices.length + i) (by omega))
  have h3 := runAll_ok w g.dependants (0 + g.MicroServices.length + g.Extensions.length)
    (fun i hi => by
      simpa using h (g.MicroServices.length + g.Extensions.length + i) (by omega))
  have htake : (g.MicroServices ++ g.Extensions).take (catalog g).length =
      g.MicroServices ++ g.Extensions := List.take_of_length_le (by omega)
  unfold startTiers
  rw [h1]
  simp only []
  rw [h2]
  simp only []
  by_cases hd : g.dependants.length > 0
  · rw [if_pos hd, h3]
    have hlt : (g.MicroServices ++ g.Extensions).length < (catalog g).length := by omega
    have hsub : (catalog g).length - (g.MicroServices ++ g.Extensions).length =
        g.dependants.length := by omega
    rw [hfirst] at hlt hsub
    simp only [issued, hfirst, if_pos hlt, htake, hsub, List.take_length, starts_append]
    simp
  · rw [if_neg hd]
    have hlt : ¬ (g.MicroServices ++ g.Extensions).length < (catalog g).length := by omega
    rw [hfirst] at hlt
    simp only [issued, hfirst, if_neg hlt, htake, starts_append]
    simp

/-- When call number `j` (counted from 0) is the first to fail, `Launch` stops there. -/
theorem startTiers_fail (g : Globals) (w : World) (j : Nat) (e : String)
    (hj : j < (catalog g).length)
    (h : ∀ i, i < j → ∃ r, w.call i = Except.ok r)
    (he : w.call j = Except.error e) :
    startTiers g w =
      { trace := issued g w (j + 1) ++ [Event.fatal e], outcome := Outcome.fatal } := by
  have hlen : (catalog g).length =
      g.MicroServices.length + g.Extensions.length + g.dependants.length := by
    simp [catalog, Nat.add_assoc]
  have hfirst : (g.MicroServices ++ g.Extensions).length =
      g.MicroServices.length + g.Extensions.length := by simp
  unfold startTiers
  by_cases hA : j < g.MicroServices.length
  · have h1 := runAll_fail w g.MicroServices 0 j e hA
      (fun i hi => by simpa using h i hi) (by simpa using he)
    have hlt : ¬ g.MicroServices.length + g.Extensions.length < j + 1 := by omega
    have htake : (g.MicroServices ++ g.Extensions).take (j + 1) =
        g.MicroServices.take (j + 1) := List.take_append_of_le_length (by omega)
    rw [h1]
    simp only [issued, hfirst, if_neg hlt, htake, List.append_nil]
  · have h1 := runAll_ok w g.MicroServices 0 (fun i hi => by
      simpa using h i (by omega))
    rw [h1]
    simp only []
    by_cases hB : j < g.MicroServices.length + g.Extensions.length
    · have h2 := runAll_fail w g.Extensions (0 + g.MicroServices.length)
        (j - g.MicroServices.length) e (by omega)
        (fun i hi => by simpa using h (g.MicroServices.length + i) (by omega))
        (by
          have hi : 0 + g.MicroServices.length + (j - g.MicroServices.length) = j := by omega
          rw [hi]; exact he)
      have hlt : ¬ g.MicroServices.length + g.Extensions.length < j + 1 := by omega
      have htake : (g.MicroServices ++ g.Extensions).take (j + 1) =
          g.MicroServices ++ g.Extensions.take (j - g.MicroServices.length + 1) := by
        rw [List.take_append_eq_append_take, List.take_of_length_le (by omega)]
        have hi : j + 1 - g.MicroServices.length = j - g.MicroServices.length + 1 := by omega
        rw [hi]
      rw [h2]
      simp only [issued, hfirst, if_neg hlt, htake, starts_append, List.append_nil]
      simp
    · have h2 := runAll_ok w g.Extensions (0 + g.MicroServices.length) (fun i hi => by
        simpa using h (g.MicroServices.length + i) (by omega))
      rw [h2]
      simp only []
      have hd : g.dependants.length > 0 := by omega
      have h3 := runAll_fail w g.dependants (0 + g.MicroServices.length + g.Extensions.length)
        (j - (g.MicroServices.length + g.Extensions.length)) e (by omega)
        (fun i hi => by
          simpa using h (g.MicroServices.length + g.Extensions.length + i) (by omega))
        (by
          have hi : 0 + g.MicroServices.length + g.Extensions.length +
              (j - (g.MicroServices.length + g.Extensions.length)) = j := by omega
          rw [hi]; exact he)
      have hlt : g.MicroServices.length + g.Extensions.length < j + 1 := by omega
      have htake : (g.MicroServices ++ g.Extensions).take (j + 1) =
          g.MicroServices ++ g.Extensions := List.take_of_length_le (by omega)
      have hsub : j + 1 - (g.MicroServices.length + g.Extensions.length) =
          j - (g.MicroServices.length + g.Extensions.length) + 1 := by omega
      rw [if_pos hd, h3]
      simp only [issued, hfirst, if_pos hlt, htake, hsub, starts_append]
      simp

/-- The connection loop is the first part of `Launch`; the tiers follow when it connected. -/
theorem Launch_connected (g : Globals) (r : Runtime) (w : World) (t0 : List Event)
    (h : connectLoop g.maxRetries w.dial 0 =
      { trace := t0, outcome := Outcome.returned () }) :
    Launch g r w =
      { trace := t0 ++ (startTiers g w).trace, outcome := (startTiers g w).outcome } := by
  simp [Launch, h]

theorem Launch_exhausted (g : Globals) (r : Runtime) (w : World) (t0 : List Event)
    (h : connectLoop g.maxRetries w.dial 0 = { trace := t0, outcome := Outcome.fatal }) :
    Launch g r w = { trace := t0, outcome := Outcome.fatal } := by
  simp [Launch, h]

/-! ### Events that the tiers never produce -/

theorem runAll_events (w : World) (vs : List String) (n : Nat) :
    ∀ e, e ∈ (runAll w vs n).trace → isStartOrFatal e = true := by
  induction vs generalizing n with
  | nil => simp [runAll]
  | cons v vs ih =>
    intro e he
    cases hc : w.call n with
    | error err =>
      simp [runAll, RunService, hc] at he
      rcases he with rfl | rfl <;> rfl
    | ok reply =>
      simp [runAll, RunService, hc] at he
      rcases he with rfl | he
      · rfl
      · exact ih (n + 1) e he

theorem startTiers_events (g : Globals) (w : World) :
    ∀ e, e ∈ (startTiers g w).trace → isStartOrFatal e = true ∨ e = Event.sleep 2 := by
  intro e he
  unfold startTiers at he
  rcases h1 : runAll w g.MicroServices 0 with ⟨t1, o1⟩
  have e1 := runAll_events w g.MicroServices 0
  rw [h1] at he e1
  cases o1 with
  | fatal => exact Or.inl (e1 e (by simpa using he))
  | returned n1 =>
    simp only [] at he
    rcases h2 : runAll w g.Extensions n1 with ⟨t2, o2⟩
    have e2 := runAll_events w g.Extensions n1
    rw [h2] at he e2
    cases o2 with
    | fatal =>
      simp only [List.mem_append] at he
      rcases he with he | he
      · exact Or.inl (e1 e he)
      · exact Or.inl (e2 e he)
    | returned n2 =>
      simp only [] at he
      by_cases hd : g.dependants.length > 0
      · rw [if_pos hd] at he
        rcases h3 : runAll w g.dependants n2 with ⟨t3, o3⟩
        have e3 := runAll_events w g.dependants n2
        rw [h3] at he e3
        have hmem : e ∈ t1 ++ t2 ++ Event.sleep 2 :: t3 := by
          cases o3 <;> simpa using he
        simp only [List.mem_append, List.mem_cons] at hmem
        rcases hmem with (hm | hm) | hm | hm
        · exact Or.inl (e1 e hm)
        · exact Or.inl (e2 e hm)
        · exact Or.inr hm
        · exact Or.inl (e3 e hm)
      · rw [if_neg hd] at he
        simp only [List.mem_append] at he
        rcases he with he | he
        · exact Or.inl (e1 e he)
        · exact Or.inl (e2 e he)

theorem dials_startTiers (g : Globals) (w : World) : dials (startTiers g w).trace = 0 := by
  apply List.count_eq_zero.mpr
  intro h
  rcases startTiers_events g w _ h with h | h
  · simp [isStartOrFatal] at h
  · simp at h

theorem sleeps_one_startTiers (g : Globals) (w : World) :
    sleeps 1 (startTiers g w).trace = 0 := by
  apply List.count_eq_zero.mpr
  intro h
  rcases startTiers_events g w _ h with h | h
  · simp [isStartOrFatal] at h
  · simp at h

theorem startNames_issued (g : Globals) (w : World) (k : Nat) :
    startNames (issued g w k) = (catalog g).take k := by
  have hcat : catalog g = (g.MicroServices ++ g.Extensions) ++ g.dependants := rfl
  rw [hcat, List.take_append_eq_append_take]
  by_cases hlt : (g.MicroServices ++ g.Extensions).length < k
  · simp only [issued, if_pos hlt, startNames_append, startNames_starts,
      startNames_sleep_cons]
  · have hz : k - (g.MicroServices ++ g.Extensions).length = 0 := by omega
    simp only [issued, if_neg hlt, startNames_append, startNames_starts, hz]
    simp [startNames]

theorem fatals_issued (g : Globals) (w : World) (k : Nat) : fatals (issued g w k) = 0 := by
  by_cases hlt : (g.MicroServices ++ g.Extensions).length < k
  · simp only [issued, if_pos hlt, fatals_append, fatals_starts]
    rw [fatals_sleep_cons, fatals_starts]
  · simp only [issued, if_neg hlt, fatals_append, fatals_starts]
    rfl

theorem sleeps_two_issued (g : Globals) (w : World) (k : Nat) :
    sleeps 2 (issued g w k) =
      if (g.MicroServices ++ g.Extensions).length < k then 1 else 0 := by
  by_cases hlt : (g.MicroServices ++ g.Extensions).length < k
  · simp only [issued, if_pos hlt, sleeps_append, sleeps_starts]
    rw [sleeps_sleep_cons, sleeps_starts]
  · simp only [issued, if_neg hlt, sleeps_append, sleeps_starts]
    rfl

/-- A run whose dial succeeds within the retry bound reaches the tiers. -/
theorem Launch_of_dial (g : Globals) (r : Runtime) (w : World)
    (hdial : ∃ j, j < g.maxRetries ∧ w.dial j = true) :
    ∃ j, j < g.maxRetries ∧ (∀ i, i < j → w.dial i = false) ∧ w.dial j = true ∧
      Launch g r w =
        { trace := rounds j ++ Event.dial :: (startTiers g w).trace,
          outcome := (startTiers g w).outcome } := by
  obtain ⟨j, _, hjN, hfail, hcase⟩ := connectLoop_cases g.maxRetries w.dial 0 (Nat.zero_le _)
  rcases hcase with ⟨hj, _⟩ | ⟨hj, hd, hrun⟩
  · obtain ⟨i, hi, hdi⟩ := hdial
    have := hfail i (Nat.zero_le _) (by omega)
    rw [hdi] at this
    exact absurd this (by simp)
  · refine ⟨j, hj, fun i hi => hfail i (Nat.zero_le _) hi, hd, ?_⟩
    rw [Launch_connected g r w _ hrun]
    simp

theorem sleeps_of_events (s : Nat) (t : List Event)
    (h : ∀ e, e ∈ t → isStartOrFatal e = true) : sleeps s t = 0 := by
  apply List.count_eq_zero.mpr
  intro hm
  have := h _ hm
  simp [isStartOrFatal] at this

theorem runAll_head (w : World) (v : String) (vs : List String) (n : Nat) :
    (runAll w (v :: vs) n).trace.head? =
      some (Event.start v (NewProcEntry v (w.environ n) [v])) := by
  cases hc : w.call n <;> simp [runAll, RunService, hc]

theorem startNames_runAll_prefix (w : World) (vs : List String) (n : Nat) :
    startNames (runAll w vs n).trace <+: vs := by
  induction vs generalizing n with
  | nil => simp [runAll, startNames]
  | cons v vs ih =>
    cases hc : w.call n with
    | error err =>
      simp [runAll, RunService, hc, startNames]
    | ok reply =>
      have h := ih (n + 1)
      simp only [startNames] at h
      simp [runAll, RunService, hc, startNames, List.cons_prefix_cons, h]

/-- With the first two tiers started, what remains is the delay and the dependents. -/
theorem startTiers_dependants (g : Globals) (w : World)
    (hcall : ∀ i, i < (g.MicroServices ++ g.Extensions).length →
      ∃ reply, w.call i = Except.ok reply) :
    (startTiers g w).trace =
      starts w (g.MicroServices ++ g.Extensions) 0 ++
        (if g.dependants.length > 0 then
          Event.sleep 2 :: (runAll w g.dependants (g.MicroServices ++ g.Extensions).length).trace
        else []) ∧
    (g.dependants = [] → (startTiers g w).outcome = Outcome.returned ()) := by
  have hfirst : (g.MicroServices ++ g.Extensions).length =
      g.MicroServices.length + g.Extensions.length := by simp
  have h1 := runAll_ok w g.MicroServices 0 (fun i hi => by
    simpa using hcall i (by omega))
  have h2 := runAll_ok w g.Extensions (0 + g.MicroServices.length) (fun i hi => by
    simpa using hcall (g.MicroServices.length + i) (by omega))
  unfold startTiers
  rw [h1]
  simp only []
  rw [h2]
  simp only []
  by_cases hd : g.dependants.length > 0
  · rw [if_pos hd, if_pos hd]
    have hne : g.dependants ≠ [] := by
      intro h0; rw [h0] at hd; simp at hd
    rw [hfirst, starts_append]
    rcases h3 : runAll w g.dependants (0 + g.MicroServices.length + g.Extensions.length)
      with ⟨t3, o3⟩
    have h3' : runAll w g.dependants (g.MicroServices.length + g.Extensions.length) =
        { trace := t3, outcome := o3 } := by simpa using h3
    rw [h3']
    cases o3 <;> simp [hne]
  · rw [if_neg hd, if_neg hd, starts_append]
    simp

/-- The shape of the tiers' trace in every run: start calls and fatal exits, with at most
one settle delay, which is there only for a non-empty dependents tier. -/
theorem startTiers_shape (g : Globals) (w : World) :
    ∃ a c, (∀ e, e ∈ a → isStartOrFatal e = true) ∧ (∀ e, e ∈ c → isStartOrFatal e = true) ∧
      ((startTiers g w).trace = a ∨
        (g.dependants ≠ [] ∧ (startTiers g w).trace = a ++ Event.sleep 2 :: c)) := by
  unfold startTiers
  rcases h1 : runAll w g.MicroServices 0 with ⟨t1, o1⟩
  have e1 := runAll_events w g.MicroServices 0
  rw [h1] at e1
  cases o1 with
  | fatal => exact ⟨t1, [], e1, by simp, Or.inl rfl⟩
  | returned n1 =>
    simp only []
    rcases h2 : runAll w g.Extensions n1 with ⟨t2, o2⟩
    have e2 := runAll_events w g.Extensions n1
    rw [h2] at e2
    have e12 : ∀ e, e ∈ t1 ++ t2 → isStartOrFatal e = true := by
      intro e he
      rcases List.mem_append.mp he with he | he
      · exact e1 e he
      · exact e2 e he
    cases o2 with
    | fatal => exact ⟨t1 ++ t2, [], e12, by simp, Or.inl rfl⟩
    | returned n2 =>
      simp only []
      by_cases hd : g.dependants.length > 0
      · rw [if_pos hd]
        have hne : g.dependants ≠ [] := by
          intro h0; rw [h0] at hd; simp at hd
        rcases h3 : runAll w g.dependants n2 with ⟨t3, o3⟩
        have e3 := runAll_events w g.dependants n2
        rw [h3] at e3
        refine ⟨t1 ++ t2, t3, e12, e3, Or.inr ⟨hne, ?_⟩⟩
        cases o3 <;> rfl
      · rw [if_neg hd]
        exact ⟨t1 ++ t2, [], e12, by simp, Or.inl rfl⟩

theorem sleeps_two_startTiers (g : Globals) (w : World) :
    sleeps 2 (startTiers g w).trace ≤ 1 ∧
    (g.dependants = [] → sleeps 2 (startTiers g w).trace = 0) := by
  obtain ⟨a, c, ha, hc, h | ⟨hne, h⟩⟩ := startTiers_shape g w
  · rw [h, sleeps_of_events 2 a ha]
    exact ⟨Nat.zero_le _, fun _ => rfl⟩
  · rw [h, sleeps_append, sleeps_sleep_cons, sleeps_of_events 2 a ha, sleeps_of_events 2 c hc]
    exact ⟨Nat.le_refl _, fun h0 => absurd h0 hne⟩

/-- The tiers do not look at the replies, only at whether a call failed. -/
theorem runAll_congr (w w' : World) (henv : w'.environ = w.environ)
    (hcall : ∀ i, callError w' i = callError w i) (vs : List String) (n : Nat) :
    runAll w' vs n = runAll w vs n := by
  induction vs generalizing n with
  | nil => rfl
  | cons v vs ih =>
    have h := hcall n
    cases hc : w.call n with
    | error err =>
      cases hc' : w'.call n with
      | error err' =>
        simp only [callError, hc, hc', Option.some.injEq] at h
        simp [runAll, RunService, hc, hc', henv, h]
      | ok reply' => simp [callError, hc, hc'] at h
    | ok reply =>
      cases hc' : w'.call n with
      | error err' => simp [callError, hc, hc'] at h
      | ok reply' => simp [runAll, RunService, hc, hc', henv, ih (n + 1)]

theorem Launch_congr (g : Globals) (r : Runtime) (w w' : World) (hdial : w'.dial = w.dial)
    (henv : w'.environ = w.environ) (hcall : ∀ i, callError w' i = callError w i) :
    Launch g r w' = Launch g r w := by
  have hrun : startTiers g w' = startTiers g w := by
    unfold startTiers
    simp only [runAll_congr w w' henv hcall]
  unfold Launch
  rw [hdial, hrun]

/-- A run whose first `m` dials fail and whose next dial succeeds. -/
theorem Launch_first_success (g : Globals) (r : Runtime) (w : World) (m : Nat)
    (hm : m < g.maxRetries) (hfail : ∀ i, i < m → w.dial i = false) (hok : w.dial m = true) :
    Launch g r w =
      { trace := rounds m ++ Event.dial :: (startTiers g w).trace,
        outcome := (startTiers g w).outcome } := by
  have h1 := connectLoop_failures g.maxRetries w.dial 0 m (by omega)
    (fun i _ hi => hfail i (by omega))
  have h2 := connectLoop_connected g.maxRetries w.dial (0 + m) (by omega)
    (by rw [Nat.zero_add]; exact hok)
  rw [h2] at h1
  rw [Launch_connected g r w _ h1]
  simp

/-- A run all of whose first `maxRetries` dials fail. -/
theorem Launch_all_fail (g : Globals) (r : Runtime) (w : World)
    (hfail : ∀ i, i < g.maxRetries → w.dial i = false) :
    Launch g r w =
      { trace := rounds g.maxRetries ++ [Event.fatal noConnection],
        outcome := Outcome.fatal } := by
  have h1 := connectLoop_failures g.maxRetries w.dial 0 g.maxRetries (by omega)
    (fun i _ hi => hfail i (by omega))
  have h2 := connectLoop_exhausted g.maxRetries w.dial (0 + g.maxRetries) (by omega)
  rw [h2] at h1
  exact Launch_exhausted g r w _ h1

theorem dials_first_success (g : Globals) (w : World) (m : Nat) :
    dials (rounds m ++ Event.dial :: (startTiers g w).trace) = m + 1 := by
  rw [dials_append, dials_rounds, dials_dial_cons, dials_startTiers]

theorem sleeps_one_first_success (g : Globals) (w : World) (m : Nat) :
    sleeps 1 (rounds m ++ Event.dial :: (startTiers g w).trace) = m := by
  rw [sleeps_append, sleeps_one_rounds, sleeps_dial_cons, sleeps_one_startTiers]
  rfl

/-- The run in the world `worldAfter f`: `f` failed rounds, then all tiers. -/
theorem Launch_worldAfter (g : Globals) (r : Runtime) (f : Nat) (hf : f < g.maxRetries) :
    (Launch g r (worldAfter f)).trace =
      rounds f ++ Event.dial :: (startTiers g (worldAfter f)).trace ∧
    (Launch g r (worldAfter f)).outcome = Outcome.returned () := by
  have h := Launch_first_success g r (worldAfter f) f hf
    (fun i hi => by simp [worldAfter]; omega) (by simp [worldAfter])
  have hst := startTiers_ok g (worldAfter f) (fun _ _ => ⟨0, rfl⟩)
  rw [h]
  exact ⟨rfl, by rw [hst]⟩

/-! ### Properties of `Launch` and `RunService` -/

/-- C1: the connection loop of `Launch` is bounded by `maxRetries` (10 as shipped).  For
every sequence of dial outcomes there is a number `j ≤ maxRetries` of failed dials, each
followed by a 1-second sleep, after which either `j = maxRetries` and the run ends
fatally, with exactly `maxRetries` dials and `maxRetries` sleeps, or dial `j + 1`
succeeds and is accepted with `j + 1` dials, `j` sleeps and no fatal exit from the loop.
No run makes more than `maxRetries` dials. -/
theorem Launch_connection_loop_bounded (g : Globals) (r : Runtime) (w : World) :
    shipped.maxRetries = 10 ∧
    dials (Launch g r w).trace ≤ g.maxRetries ∧
    ∃ j, j ≤ g.maxRetries ∧ (∀ i, i < j → w.dial i = false) ∧
      ((j = g.maxRetries ∧
          Launch g r w =
            { trace := rounds g.maxRetries ++ [Event.fatal noConnection],
              outcome := Outcome.fatal } ∧
          dials (Launch g r w).trace = g.maxRetries ∧
          sleeps 1 (Launch g r w).trace = g.maxRetries) ∨
       (j < g.maxRetries ∧ w.dial j = true ∧
          (Launch g r w).trace = rounds j ++ Event.dial :: (startTiers g w).trace ∧
          (Launch g r w).outcome = (startTiers g w).outcome ∧
          fatals (rounds j ++ [Event.dial]) = 0 ∧
          dials (Launch g r w).trace = j + 1 ∧
          sleeps 1 (Launch g r w).trace = j)) := by
  obtain ⟨j, _, hjN, hfail, hcase⟩ := connectLoop_cases g.maxRetries w.dial 0 (Nat.zero_le _)
  have hfail0 : ∀ i, i < j → w.dial i = false := fun i hi => hfail i (Nat.zero_le _) hi
  rcases hcase with ⟨hj, hrun⟩ | ⟨hj, hd, hrun⟩
  · have hL := Launch_exhausted g r w _ hrun
    rw [Nat.sub_zero, hj] at hL
    have hdials : dials (Launch g r w).trace = g.maxRetries := by
      rw [hL]
      simp only [dials_append, dials_rounds]
      simp [dials]
    have hsleeps : sleeps 1 (Launch g r w).trace = g.maxRetries := by
      rw [hL]
      simp only [sleeps_append, sleeps_one_rounds]
      simp [sleeps]
    exact ⟨rfl, Nat.le_of_eq hdials, j, hjN, hfail0, Or.inl ⟨hj, hL, hdials, hsleeps⟩⟩
  · have hL := Launch_connected g r w _ hrun
    rw [Nat.sub_zero] at hL
    have htrace : (Launch g r w).trace = rounds j ++ Event.dial :: (startTiers g w).trace := by
      rw [hL]; simp
    have hdials : dials (Launch g r w).trace = j + 1 := by
      rw [htrace]
      rw [dials_append, dials_rounds, dials_dial_cons, dials_startTiers]
    have hsleeps : sleeps 1 (Launch g r w).trace = j := by
      rw [htrace]
      rw [sleeps_append, sleeps_one_rounds, sleeps_dial_cons, sleeps_one_startTiers]
      rfl
    have hfat : fatals (rounds j ++ [Event.dial]) = 0 := by
      rw [fatals_append, fatals_rounds]
      rfl
    exact ⟨rfl, by omega, j, hjN, hfail0,
      Or.inr ⟨hj, hd, htrace, by rw [hL], hfat, hdials, hsleeps⟩⟩

/-- C2: when a dial succeeds within the retry bound and every start call succeeds, the
service names passed to `RunService` are `MicroServices ++ Extensions ++ dependants`, each
entry once and in catalog order, and `Launch` returns; for the shipped catalog these are
3 + 24 + 2 = 29 calls, the first for "api" and the last for "storage-sharing". -/
theorem Launch_starts_catalog_in_order (g : Globals) (r : Runtime) (w : World)
    (hdial : ∃ j, j < g.maxRetries ∧ w.dial j = true)
    (hcall : ∀ i, i < (catalog g).length → ∃ reply, w.call i = Except.ok reply) :
    startNames (Launch g r w).trace = g.MicroServices ++ g.Extensions ++ g.dependants ∧
    (Launch g r w).outcome = Outcome.returned () ∧
    fatals (Launch g r w).trace = 0 ∧
    shipped.MicroServices.length = 3 ∧ shipped.Extensions.length = 24 ∧
    shipped.dependants.length = 2 ∧ (catalog shipped).length = 29 ∧
    (catalog shipped).head? = some "api" ∧
    (catalog shipped).getLast? = some "storage-sharing" := by
  obtain ⟨j, _, _, _, hL⟩ := Launch_of_dial g r w hdial
  rw [hL, startTiers_ok g w hcall]
  refine ⟨?_, rfl, ?_, rfl, rfl, rfl, rfl, rfl, rfl⟩
  · simp only [startNames_append, startNames_rounds, startNames_dial_cons,
      startNames_issued, List.take_length, List.nil_append]
    rfl
  · simp only [fatals_append, fatals_rounds, fatals_dial_cons, fatals_issued]

theorem Launch_starts_catalog_in_order_witness :
    (∃ j, j < shipped.maxRetries ∧ (worldAfter 2).dial j = true) ∧
    startNames (Launch shipped New (worldAfter 2)).trace =
      shipped.MicroServices ++ shipped.Extensions ++ shipped.dependants ∧
    (Launch shipped New (worldAfter 2)).outcome = Outcome.returned () :=
  have hdial : ∃ j, j < shipped.maxRetries ∧ (worldAfter 2).dial j = true :=
    ⟨2, by decide, by decide⟩
  have h := Launch_starts_catalog_in_order shipped New (worldAfter 2) hdial
    (fun _ _ => ⟨0, rfl⟩)
  ⟨hdial, h.1, h.2.1⟩

/-- C3: fail-fast.  When a dial succeeds within the retry bound and the `k`-th start call
of the order `MicroServices ++ Extensions ++ dependants` is the first that fails, `Launch`
ends fatally right after it: the start calls issued are exactly the first `k` entries of
that order, the trace ends with the fatal exit, and nothing is issued after it (the trace
holds no other event than the connection rounds, the `k` start calls and, before a
dependent, the settle delay). -/
theorem Launch_fail_fast (g : Globals) (r : Runtime) (w : World) (k : Nat) (e : String)
    (hdial : ∃ j, j < g.maxRetries ∧ w.dial j = true)
    (hk1 : 1 ≤ k) (hk : k ≤ (catalog g).length)
    (hok : ∀ i, i + 1 < k → ∃ reply, w.call i = Except.ok reply)
    (hfail : w.call (k - 1) = Except.error e) :
    (Launch g r w).outcome = Outcome.fatal ∧
    startNames (Launch g r w).trace = (catalog g).take k ∧
    (startNames (Launch g r w).trace).length = k ∧
    (Launch g r w).trace.getLast? = some (Event.fatal e) ∧
    fatals (Launch g r w).trace = 1 ∧
    ∃ j, j < g.maxRetries ∧
      (Launch g r w).trace = rounds j ++ Event.dial :: (issued g w k ++ [Event.fatal e]) := by
  obtain ⟨j, hj, _, _, hL⟩ := Launch_of_dial g r w hdial
  have hst := startTiers_fail g w (k - 1) e (by omega)
    (fun i hi => hok i (by omega)) hfail
  have hk' : k - 1 + 1 = k := by omega
  rw [hk'] at hst
  rw [hst] at hL
  have hnames : startNames (Launch g r w).trace = (catalog g).take k := by
    rw [hL]
    simp only [startNames_append, startNames_rounds, startNames_dial_cons,
      startNames_issued, List.nil_append]
    simp [startNames]
  refine ⟨by rw [hL], hnames, ?_, ?_, ?_, j, hj, by rw [hL]⟩
  · rw [hnames, List.length_take]
    omega
  · rw [hL]
    have hsplit : rounds j ++ Event.dial :: (issued g w k ++ [Event.fatal e]) =
        (rounds j ++ Event.dial :: issued g w k) ++ [Event.fatal e] := by simp
    show (rounds j ++ Event.dial :: (issued g w k ++ [Event.fatal e])).getLast? = _
    rw [hsplit]
    exact List.getLast?_concat _
  · rw [hL]
    simp only [fatals_append, fatals_rounds, fatals_dial_cons, fatals_issued]
    rfl

theorem Launch_fail_fast_witness :
    (worldFailingAt 4).call (5 - 1) = Except.error "start failed" ∧
    (Launch shipped New (worldFailingAt 4)).outcome = Outcome.fatal ∧
    startNames (Launch shipped New (worldFailingAt 4)).trace =
      ["api", "web", "registry", "proxy", "store"] :=
  have h := Launch_fail_fast shipped New (worldFailingAt 4) 5 "start failed"
    ⟨0, by decide, rfl⟩ (by decide) (by decide)
    (fun i hi => ⟨0, by
      have hne : i ≠ 4 := by omega
      simp [worldFailingAt, hne]⟩)
    rfl
  ⟨rfl, h.1, h.2.1⟩

/-- C4: the settle delay.  In a run that connects and starts the platform and extension
tiers, a non-empty dependents tier makes `Launch` sleep 2 seconds (longer than the 1-second
retry sleep) exactly once, after the last extension start and before the first dependent
start; an empty dependents tier means no settle delay and the run returns right after the
extension tier.  No run sleeps the settle delay more than once. -/
theorem Launch_settle_delay (g : Globals) (r : Runtime) (w : World)
    (hdial : ∃ j, j < g.maxRetries ∧ w.dial j = true)
    (hcall : ∀ i, i < (g.MicroServices ++ g.Extensions).length →
      ∃ reply, w.call i = Except.ok reply) :
    (∀ s, Event.sleep s ∈ retryEvents → s < 2) ∧
    sleeps 2 (Launch g r w).trace ≤ 1 ∧
    (g.dependants ≠ [] →
      ∃ j rest,
        (Launch g r w).trace =
          (rounds j ++ Event.dial :: starts w (g.MicroServices ++ g.Extensions) 0) ++
            Event.sleep 2 :: rest ∧
        rest = (runAll w g.dependants (g.MicroServices ++ g.Extensions).length).trace ∧
        startNames (rounds j ++ Event.dial :: starts w (g.MicroServices ++ g.Extensions) 0) =
          g.MicroServices ++ g.Extensions ∧
        sleeps 2 (rounds j ++ Event.dial :: starts w (g.MicroServices ++ g.Extensions) 0) = 0 ∧
        (∃ d ds a, g.dependants = d :: ds ∧ rest.head? = some (Event.start d a)) ∧
        startNames rest <+: g.dependants ∧
        sleeps 2 rest = 0 ∧
        sleeps 2 (Launch g r w).trace = 1) ∧
    (g.dependants = [] →
      ∃ j,
        Launch g r w =
          { trace := rounds j ++ Event.dial :: starts w (g.MicroServices ++ g.Extensions) 0,
            outcome := Outcome.returned () } ∧
        sleeps 2 (Launch g r w).trace = 0) := by
  obtain ⟨j, _, _, _, hL⟩ := Launch_of_dial g r w hdial
  obtain ⟨htr, hout⟩ := startTiers_dependants g w hcall
  have hpre : sleeps 2
      (rounds j ++ Event.dial :: starts w (g.MicroServices ++ g.Extensions) 0) = 0 := by
    rw [sleeps_append, sleeps_two_rounds, sleeps_dial_cons, sleeps_starts]
  have hall : sleeps 2 (Launch g r w).trace = sleeps 2 (startTiers g w).trace := by
    rw [hL]
    show sleeps 2 (rounds j ++ Event.dial :: (startTiers g w).trace) = _
    rw [sleeps_append, sleeps_two_rounds, sleeps_dial_cons, Nat.zero_add]
  refine ⟨?_, ?_, ?_, ?_⟩
  · intro s hs
    simp [retryEvents] at hs
    omega
  · rw [hall]
    exact (sleeps_two_startTiers g w).1
  · intro hne
    have hd : g.dependants.length > 0 := List.length_pos.mpr hne
    rw [if_pos hd] at htr
    have hrest : sleeps 2
        (runAll w g.dependants (g.MicroServices ++ g.Extensions).length).trace = 0 :=
      sleeps_of_events 2 _ (runAll_events w g.dependants _)
    refine ⟨j, _, ?_, rfl, ?_, hpre, ?_, startNames_runAll_prefix w g.dependants _, hrest, ?_⟩
    · rw [hL]
      show rounds j ++ Event.dial :: (startTiers g w).trace = _
      rw [htr]
      simp
    · rw [startNames_append, startNames_rounds, startNames_dial_cons, startNames_starts]
      rfl
    · cases hg : g.dependants with
      | nil => exact absurd hg hne
      | cons d ds => exact ⟨d, ds, _, rfl, runAll_head w d ds _⟩
    · rw [hall, htr, sleeps_append, sleeps_starts, sleeps_sleep_cons, hrest]
  · intro hnil
    have hd : ¬ g.dependants.length > 0 := by rw [hnil]; simp
    rw [if_neg hd, List.append_nil] at htr
    refine ⟨j, ?_, ?_⟩
    · rw [hL, htr, hout hnil]
    · rw [hall]
      exact (sleeps_two_startTiers g w).2 hnil

theorem Launch_settle_delay_witness :
    (∃ j, j < shipped.maxRetries ∧ (worldAfter 1).dial j = true) ∧
    shipped.dependants ≠ [] ∧
    sleeps 2 (Launch shipped New (worldAfter 1)).trace = 1 := by
  have hdial : ∃ j, j < shipped.maxRetries ∧ (worldAfter 1).dial j = true :=
    ⟨1, by decide, by decide⟩
  have hne : shipped.dependants ≠ [] := by simp [shipped, dependants]
  have h := Launch_settle_delay shipped New (worldAfter 1) hdial (fun _ _ => ⟨0, rfl⟩)
  obtain ⟨_, _, _, _, _, _, _, _, _, h1⟩ := h.2.2.1 hne
  exact ⟨hdial, hne, h1⟩

/-- C5 as stated fails: after a run on `New` that counted 3 failed dials and returned, a
later run on the same `Runtime` whose first `maxRetries - 3 = 7` dials fail and whose 8th
dial succeeds does not end fatally after 7 failures; it makes the 8th dial and returns. -/
theorem Launch_retry_counter_counterexample :
    sleeps 1 (Launch shipped New (worldAfter 3)).trace = 3 ∧
    (Launch shipped New (worldAfter 3)).outcome = Outcome.returned () ∧
    shipped.maxRetries - 3 = 7 ∧
    (∀ i, i < 7 → (worldAfter 7).dial i = false) ∧
    dials (Launch shipped New (worldAfter 7)).trace = 8 ∧
    fatals (Launch shipped New (worldAfter 7)).trace = 0 ∧
    (Launch shipped New (worldAfter 7)).outcome = Outcome.returned () := by
  have h3 := Launch_worldAfter shipped New 3 (by decide)
  have h7 := Launch_worldAfter shipped New 7 (by decide)
  have hst := startTiers_ok shipped (worldAfter 7) (fun _ _ => ⟨0, rfl⟩)
  refine ⟨?_, h3.2, rfl, ?_, ?_, ?_, h7.2⟩
  · rw [h3.1]
    exact sleeps_one_first_success shipped (worldAfter 3) 3
  · intro i hi
    simp [worldAfter]
    omega
  · rw [h7.1]
    exact dials_first_success shipped (worldAfter 7) 7
  · rw [h7.1, hst]
    simp only [fatals_append, fatals_rounds, fatals_dial_cons, fatals_issued]

/-- C5, amended: the attempt counter is a local variable of `Launch`, zero on every call,
and `Runtime` has no fields.  So after a run on a `Runtime` that counted `f < maxRetries`
failed dials and returned, a later run on the same `Runtime` starts counting at zero: it
ends fatally when its first `maxRetries` dials fail, after exactly `maxRetries` dials, and
a dial that succeeds after `m < maxRetries` failed ones is accepted (for `f > 0` also
`m = maxRetries - f`). -/
theorem Launch_retry_counter_starts_at_zero (g : Globals) (r : Runtime) (w1 w2 : World)
    (f : Nat) (hf : f < g.maxRetries)
    (_hfirst : sleeps 1 (Launch g r w1).trace = f)
    (_hret : (Launch g r w1).outcome = Outcome.returned ()) :
    ((∀ i, i < g.maxRetries → w2.dial i = false) →
      Launch g r w2 =
        { trace := rounds g.maxRetries ++ [Event.fatal noConnection],
          outcome := Outcome.fatal } ∧
      dials (Launch g r w2).trace = g.maxRetries) ∧
    (∀ m, m < g.maxRetries → (∀ i, i < m → w2.dial i = false) → w2.dial m = true →
      (Launch g r w2).trace = rounds m ++ Event.dial :: (startTiers g w2).trace ∧
      (Launch g r w2).outcome = (startTiers g w2).outcome ∧
      dials (Launch g r w2).trace = m + 1) ∧
    (0 < f → (∀ i, i < g.maxRetries - f → w2.dial i = false) →
      w2.dial (g.maxRetries - f) = true →
      dials (Launch g r w2).trace = g.maxRetries - f + 1 ∧
      (Launch g r w2).outcome = (startTiers g w2).outcome) := by
  have hsucc : ∀ m, m < g.maxRetries → (∀ i, i < m → w2.dial i = false) →
      w2.dial m = true →
      (Launch g r w2).trace = rounds m ++ Event.dial :: (startTiers g w2).trace ∧
      (Launch g r w2).outcome = (startTiers g w2).outcome ∧
      dials (Launch g r w2).trace = m + 1 := by
    intro m hm hfail hok
    have h := Launch_first_success g r w2 m hm hfail hok
    refine ⟨by rw [h], by rw [h], ?_⟩
    rw [h]
    exact dials_first_success g w2 m
  refine ⟨?_, hsucc, ?_⟩
  · intro hfail
    have h := Launch_all_fail g r w2 hfail
    refine ⟨h, ?_⟩
    rw [h]
    show dials (rounds g.maxRetries ++ [Event.fatal noConnection]) = _
    rw [dials_append, dials_rounds]
    rfl
  · intro hpos hfail hok
    have h := hsucc (g.maxRetries - f) (by omega) hfail hok
    exact ⟨h.2.2, h.2.1⟩

theorem Launch_retry_counter_starts_at_zero_witness :
    sleeps 1 (Launch shipped New (worldAfter 3)).trace = 3 ∧
    dials (Launch shipped New (worldAfter 7)).trace = shipped.maxRetries - 3 + 1 ∧
    (Launch shipped New (worldAfter 7)).outcome = (startTiers shipped (worldAfter 7)).outcome := by
  have h3 := Launch_worldAfter shipped New 3 (by decide)
  have hfirst : sleeps 1 (Launch shipped New (worldAfter 3)).trace = 3 := by
    rw [h3.1]
    exact sleeps_one_first_success shipped (worldAfter 3) 3
  have h := Launch_retry_counter_starts_at_zero shipped New (worldAfter 3) (worldAfter 7) 3
    (by decide) hfirst h3.2
  exact ⟨hfirst, h.2.2 (by decide) (fun i hi => by
    have hi7 : i < 7 := hi
    simp [worldAfter]
    omega) (by decide)⟩

/-- C6: `RunService` ends fatally exactly when the one `Service.Start` call returns an
error, and it makes that one call only (no retry).  Otherwise it returns the reply
unchanged, whatever its value, and the loop goes on with the next name; `Launch` does not
depend on the values of the replies at all. -/
theorem RunService_fatal_iff_call_error (g : Globals) (r : Runtime) (w : World) (n : Nat)
    (service : String) :
    ((RunService w n service).outcome = Outcome.fatal ↔ ∃ e, w.call n = Except.error e) ∧
    startNames (RunService w n service).trace = [service] ∧
    (∀ reply, w.call n = Except.ok reply →
      RunService w n service =
        { trace := [Event.start service (NewProcEntry service (w.environ n) [service])],
          outcome := Outcome.returned reply } ∧
      ∀ vs, runAll w (service :: vs) n =
        { trace := Event.start service (NewProcEntry service (w.environ n) [service]) ::
            (runAll w vs (n + 1)).trace,
          outcome := (runAll w vs (n + 1)).outcome }) ∧
    (∀ w2 : World, w2.dial = w.dial → w2.environ = w.environ →
      (∀ i, callError w2 i = callError w i) → Launch g r w2 = Launch g r w) := by
  refine ⟨?_, ?_, ?_, ?_⟩
  · cases hc : w.call n with
    | error err => simp [RunService, hc]
    | ok reply => simp [RunService, hc]
  · cases hc : w.call n <;> simp [RunService, hc, startNames]
  · intro reply hc
    refine ⟨by simp [RunService, hc], fun vs => ?_⟩
    simp [runAll, RunService, hc]
  · intro w2 hdial henv hcall
    exact Launch_congr g r w w2 hdial henv hcall

/-- C7: the request `RunService` builds for a service name and an environment snapshot has
that name as service name, the one-element argument list `[name]` and that snapshot as
environment; two constructions from the same name and the same snapshot are equal. -/
theorem RunService_request_deterministic (w1 w2 : World) (n1 n2 : Nat) (service : String)
    (henv : w1.environ n1 = w2.environ n2) :
    startArgs (RunService w1 n1 service).trace =
      [{ Extension := service, Env := w1.environ n1, Args := [service] }] ∧
    startArgs (RunService w1 n1 service).trace = startArgs (RunService w2 n2 service).trace := by
  have h : ∀ (w : World) (n : Nat), startArgs (RunService w n service).trace =
      [{ Extension := service, Env := w.environ n, Args := [service] }] := by
    intro w n
    cases hc : w.call n <;> simp [RunService, hc, startArgs, NewProcEntry]
  exact ⟨h w1 n1, by rw [h w1 n1, h w2 n2, henv]⟩

theorem RunService_request_deterministic_witness :
    (worldFailingAt 0).environ 0 = (worldFailingAt 5).environ 3 ∧
    startArgs (RunService (worldFailingAt 0) 0 "proxy").trace =
      [{ Extension := "proxy", Env := ["HOME=/root"], Args := ["proxy"] }] ∧
    startArgs (RunService (worldFailingAt 0) 0 "proxy").trace =
      startArgs (RunService (worldFailingAt 5) 3 "proxy").trace :=
  ⟨rfl, RunService_request_deterministic (worldFailingAt 0) (worldFailingAt 5) 0 3 "proxy" rfl⟩

end runtime

/-! ## Properties of `getAccount` -/

namespace middleware

/-- A cache hit of type `acc.Account`. -/
theorem getAccount_hit (sv : Services) (claims : StandardClaims) (a : Account)
    (hget : sv.cacheGet sv.AccountsKey claims.Email = Except.ok (CacheValue.account a)) :
    getAccount sv claims = { account := some a, status := 0 } := by
  simp [getAccount, hget]

/-- A cache hit of another type. -/
theorem getAccount_wrong_type (sv : Services) (claims : StandardClaims) (t : String)
    (hget : sv.cacheGet sv.AccountsKey claims.Email = Except.ok (CacheValue.other t)) :
    getAccount sv claims = { account := none, status := 500 } := by
  simp [getAccount, hget, StatusInternalServerError]

/-- A failed cache get followed by a failed lookup. -/
theorem getAccount_lookup_error (sv : Services) (claims : StandardClaims) (e e1 : String)
    (hget : sv.cacheGet sv.AccountsKey claims.Email = Except.error e)
    (hlist : sv.listAccounts { Query := mailQuery claims.Email, PageSize := 2 } =
      Except.error e1) :
    getAccount sv claims = { account := none, status := 500 } := by
  simp [getAccount, hget, hlist, StatusInternalServerError]

/-- A failed cache get followed by a lookup without match. -/
theorem getAccount_no_match (sv : Services) (claims : StandardClaims) (e : String)
    (hget : sv.cacheGet sv.AccountsKey claims.Email = Except.error e)
    (hlist : sv.listAccounts { Query := mailQuery claims.Email, PageSize := 2 } =
      Except.ok []) :
    getAccount sv claims = { account := none, status := 404 } := by
  simp [getAccount, hget, hlist, StatusNotFound]

/-- A failed cache get followed by a lookup with more than one match. -/
theorem getAccount_many (sv : Services) (claims : StandardClaims) (e : String)
    (a b : Account) (rest : List Account)
    (hget : sv.cacheGet sv.AccountsKey claims.Email = Except.error e)
    (hlist : sv.listAccounts { Query := mailQuery claims.Email, PageSize := 2 } =
      Except.ok (a :: b :: rest)) :
    getAccount sv claims = { account := none, status := 403 } := by
  simp [getAccount, hget, hlist, StatusForbidden]

/-- A failed cache get, one match, and a failed cache set. -/
theorem getAccount_set_error (sv : Services) (claims : StandardClaims) (e e2 : String)
    (a : Account)
    (hget : sv.cacheGet sv.AccountsKey claims.Email = Except.error e)
    (hlist : sv.listAccounts { Query := mailQuery claims.Email, PageSize := 2 } =
      Except.ok [a])
    (hset : sv.cacheSet sv.AccountsKey claims.Email a = Except.error e2) :
    getAccount sv claims = { account := none, status := 500 } := by
  simp [getAccount, hget, hlist, hset, StatusInternalServerError]

/-- A failed cache get, one match, and a cache set that succeeds. -/
theorem getAccount_cached (sv : Services) (claims : StandardClaims) (e : String)
    (a : Account)
    (hget : sv.cacheGet sv.AccountsKey claims.Email = Except.error e)
    (hlist : sv.listAccounts { Query := mailQuery claims.Email, PageSize := 2 } =
      Except.ok [a])
    (hset : sv.cacheSet sv.AccountsKey claims.Email a = Except.ok ()) :
    getAccount sv claims = { account := some a, status := 0 } := by
  simp [getAccount, hget, hlist, hset]

/-- Every call of `getAccount` ends in one of four ways. -/
theorem getAccount_cases (sv : Services) (claims : StandardClaims) :
    getAccount sv claims = { account := none, status := 500 } ∨
    getAccount sv claims = { account := none, status := 404 } ∨
    getAccount sv claims = { account := none, status := 403 } ∨
    ∃ a, getAccount sv claims = { account := some a, status := 0 } := by
  cases hget : sv.cacheGet sv.AccountsKey claims.Email with
  | ok entry =>
    cases entry with
    | account a => exact Or.inr (Or.inr (Or.inr ⟨a, getAccount_hit sv claims a hget⟩))
    | other t => exact Or.inl (getAccount_wrong_type sv claims t hget)
  | error e =>
    cases hlist : sv.listAccounts { Query := mailQuery claims.Email, PageSize := 2 } with
    | error e1 => exact Or.inl (getAccount_lookup_error sv claims e e1 hget hlist)
    | ok accounts =>
      match accounts, hlist with
      | [], hlist => exact Or.inr (Or.inl (getAccount_no_match sv claims e hget hlist))
      | a :: b :: rest, hlist =>
        exact Or.inr (Or.inr (Or.inl (getAccount_many sv claims e a b rest hget hlist)))
      | [a], hlist =>
        cases hset : sv.cacheSet sv.AccountsKey claims.Email a with
        | error e2 => exact Or.inl (getAccount_set_error sv claims e e2 a hget hlist hset)
        | ok u =>
          exact Or.inr (Or.inr (Or.inr ⟨a, getAccount_cached sv claims e a hget hlist hset⟩))

/-- C8 as stated fails: with a cache get that returns an error, one matching account and a
cache set that succeeds, `getAccount` returns the account with status 0, not status 500. -/
theorem getAccount_cache_get_error_counterexample :
    coldCache.cacheGet coldCache.AccountsKey "alice@example.org" = Except.error "not found" ∧
    getAccount coldCache { Email := "alice@example.org" } =
      { account := some alice, status := 0 } :=
  ⟨rfl, getAccount_cached coldCache { Email := "alice@example.org" } "not found" alice
    rfl rfl rfl⟩

/-- C8, amended: a failure of the cache set is an internal error (status 500, no account);
a failure of the cache get is a cache miss: the account is looked up with the accounts
service, and the answer is 500 when that lookup or the cache set fails, 404 for no match,
403 for more than one match, and the account with status 0 for one match that was
cached. -/
theorem getAccount_cache_failures (sv : Services) (claims : StandardClaims) (e : String)
    (hget : sv.cacheGet sv.AccountsKey claims.Email = Except.error e) :
    (∀ a e2, sv.listAccounts { Query := mailQuery claims.Email, PageSize := 2 } =
        Except.ok [a] →
      sv.cacheSet sv.AccountsKey claims.Email a = Except.error e2 →
      getAccount sv claims = { account := none, status := 500 }) ∧
    (∀ a, sv.listAccounts { Query := mailQuery claims.Email, PageSize := 2 } =
        Except.ok [a] →
      sv.cacheSet sv.AccountsKey claims.Email a = Except.ok () →
      getAccount sv claims = { account := some a, status := 0 }) ∧
    (∀ e1, sv.listAccounts { Query := mailQuery claims.Email, PageSize := 2 } =
        Except.error e1 →
      getAccount sv claims = { account := none, status := 500 }) ∧
    (sv.listAccounts { Query := mailQuery claims.Email, PageSize := 2 } = Except.ok [] →
      getAccount sv claims = { account := none, status := 404 }) ∧
    (∀ a b rest, sv.listAccounts { Query := mailQuery claims.Email, PageSize := 2 } =
        Except.ok (a :: b :: rest) →
      getAccount sv claims = { account := none, status := 403 }) :=
  ⟨fun a e2 hlist hset => getAccount_set_error sv claims e e2 a hget hlist hset,
   fun a hlist hset => getAccount_cached sv claims e a hget hlist hset,
   fun e1 hlist => getAccount_lookup_error sv claims e e1 hget hlist,
   fun hlist => getAccount_no_match sv claims e hget hlist,
   fun a b rest hlist => getAccount_many sv claims e a b rest hget hlist⟩

theorem getAccount_cache_failures_witness :
    brokenCache.cacheGet brokenCache.AccountsKey "alice@example.org" =
      Except.error "not found" ∧
    brokenCache.cacheSet brokenCache.AccountsKey "alice@example.org" alice =
      Except.error "cache is full" ∧
    getAccount brokenCache { Email := "alice@example.org" } =
      { account := none, status := 500 } :=
  ⟨rfl, rfl,
   (getAccount_cache_failures brokenCache { Email := "alice@example.org" } "not found" rfl).1
     alice "cache is full" rfl rfl⟩

/-- C10: `getAccount` returns status 0 exactly when it returns an account.  Every path that
sets a status (500, 404 or 403) leaves the account nil and every path that leaves the
status 0 sets the account, so the handler of `AccountUUID`, which reads the account only
when the status is 0, never dereferences a nil account. -/
theorem getAccount_status_zero_iff_account (sv : Services) (claims : StandardClaims)
    (mintToken : User → Except String String) :
    ((getAccount sv claims).status = 0 ↔ (getAccount sv claims).account ≠ none) ∧
    ((getAccount sv claims).status = 0 ∨ (getAccount sv claims).status = 500 ∨
      (getAccount sv claims).status = 404 ∨ (getAccount sv claims).status = 403) ∧
    ((getAccount sv claims).status ≠ 0 → (getAccount sv claims).account = none) ∧
    AccountUUID sv mintToken (some claims) ≠ Response.nilDereference ∧
    AccountUUID sv mintToken none = Response.next none ∧
    (∀ a, sv.cacheGet sv.AccountsKey claims.Email = Except.ok (CacheValue.account a) →
      getAccount sv claims = { account := some a, status := 0 }) ∧
    (∀ t, sv.cacheGet sv.AccountsKey claims.Email = Except.ok (CacheValue.other t) →
      getAccount sv claims = { account := none, status := 500 }) ∧
    (∀ e, sv.cacheGet sv.AccountsKey claims.Email = Except.error e →
      (∀ e1, sv.listAccounts { Query := mailQuery claims.Email, PageSize := 2 } =
          Except.error e1 →
        getAccount sv claims = { account := none, status := 500 }) ∧
      (sv.listAccounts { Query := mailQuery claims.Email, PageSize := 2 } = Except.ok [] →
        getAccount sv claims = { account := none, status := 404 }) ∧
      (∀ a b rest, sv.listAccounts { Query := mailQuery claims.Email, PageSize := 2 } =
          Except.ok (a :: b :: rest) →
        getAccount sv claims = { account := none, status := 403 }) ∧
      (∀ a e2, sv.listAccounts { Query := mailQuery claims.Email, PageSize := 2 } =
          Except.ok [a] →
        sv.cacheSet sv.AccountsKey claims.Email a = Except.error e2 →
        getAccount sv claims = { account := none, status := 500 }) ∧
      (∀ a, sv.listAccounts { Query := mailQuery claims.Email, PageSize := 2 } =
          Except.ok [a] →
        sv.cacheSet sv.AccountsKey claims.Email a = Except.ok () →
        getAccount sv claims = { account := some a, status := 0 })) := by
  have hpaths :
      (∀ a, sv.cacheGet sv.AccountsKey claims.Email = Except.ok (CacheValue.account a) →
        getAccount sv claims = { account := some a, status := 0 }) ∧
      (∀ t, sv.cacheGet sv.AccountsKey claims.Email = Except.ok (CacheValue.other t) →
        getAccount sv claims = { account := none, status := 500 }) ∧
      (∀ e, sv.cacheGet sv.AccountsKey claims.Email = Except.error e →
        (∀ e1, sv.listAccounts { Query := mailQuery claims.Email, PageSize := 2 } =
            Except.error e1 →
          getAccount sv claims = { account := none, status := 500 }) ∧
        (sv.listAccounts { Query := mailQuery claims.Email, PageSize := 2 } = Except.ok [] →
          getAccount sv claims = { account := none, status := 404 }) ∧
        (∀ a b rest, sv.listAccounts { Query := mailQuery claims.Email, PageSize := 2 } =
            Except.ok (a :: b :: rest) →
          getAccount sv claims = { account := none, status := 403 }) ∧
        (∀ a e2, sv.listAccounts { Query := mailQuery claims.Email, PageSize := 2 } =
            Except.ok [a] →
          sv.cacheSet sv.AccountsKey claims.Email a = Except.error e2 →
          getAccount sv claims = { account := none, status := 500 }) ∧
        (∀ a, sv.listAccounts { Query := mailQuery claims.Email, PageSize := 2 } =
            Except.ok [a] →
          sv.cacheSet sv.AccountsKey claims.Email a = Except.ok () →
          getAccount sv claims = { account := some a, status := 0 })) :=
    ⟨fun a h => getAccount_hit sv claims a h,
     fun t h => getAccount_wrong_type sv claims t h,
     fun e h =>
      ⟨fun e1 hl => getAccount_lookup_error sv claims e e1 h hl,
       fun hl => getAccount_no_match sv claims e h hl,
       fun a b rest hl => getAccount_many sv claims e a b rest h hl,
       fun a e2 hl hs => getAccount_set_error sv claims e e2 a h hl hs,
       fun a hl hs => getAccount_cached sv claims e a h hl hs⟩⟩
  rcases getAccount_cases sv claims with h | h | h | ⟨a, h⟩
  · refine ⟨?_, ?_, ?_, ?_, rfl, hpaths⟩
    · rw [h]; simp
    · rw [h]; simp
    · rw [h]; simp
    · simp [AccountUUID, h]
  · refine ⟨?_, ?_, ?_, ?_, rfl, hpaths⟩
    · rw [h]; simp
    · rw [h]; simp
    · rw [h]; simp
    · simp [AccountUUID, h]
  · refine ⟨?_, ?_, ?_, ?_, rfl, hpaths⟩
    · rw [h]; simp
    · rw [h]; simp
    · rw [h]; simp
    · simp [AccountUUID, h]
  · refine ⟨?_, ?_, ?_, ?_, rfl, hpaths⟩
    · rw [h]; simp
    · rw [h]; simp
    · rw [h]; simp
    · simp only [AccountUUID, h]
      cases hm : mintToken
        { OpaqueId := a.Id, Username := a.PreferredName, DisplayName := a.DisplayName,
          Mail := a.Mail,
          MailVerified := a.ExternalUserState == "" || a.ExternalUserState == "Accepted" } <;>
        simp [hm]

end middleware

/-! ## Properties of `GetThumbnail` -/

namespace svc

/-- C9: `GetThumbnail` is not total.  For a supported file type and a non-empty
authorization of fewer than 7 bytes the slice `auth[len("Bearer "):]` is out of range and
the handler panics instead of returning an error; so it does for the 3-byte authorization
`abc`.  With a token whose claims have no `kc.identity` entry, and with one whose
`kc.identity` object has no string `kc.i.un`, a type assertion panics.  A well-formed
request is answered. -/
theorem GetThumbnail_panics :
    (∀ (Resolution Encoder Token Image : Type) (d : Deps Resolution Encoder Token Image)
        (req : GetRequest) (encoder : Encoder),
      d.encoderForType req.Filetype = some encoder → req.Authorization ≠ [] →
      req.Authorization.length < 7 →
      GetThumbnail d req = Outcome.panic "slice bounds out of range") ∧
    GetThumbnail (sampleDeps []) (pngRequest [97, 98, 99]) =
      Outcome.panic "slice bounds out of range" ∧
    GetThumbnail (sampleDeps [("sub", JSON.string "alice")])
        (pngRequest (bearerPrefix ++ [116])) =
      Outcome.panic "interface conversion: interface {} is not map[string]interface {}" ∧
    GetThumbnail (sampleDeps [("kc.identity", JSON.object [("kc.i.dn", JSON.string "Alice")])])
        (pngRequest (bearerPrefix ++ [116])) =
      Outcome.panic "interface conversion: interface {} is not string" ∧
    GetThumbnail
        (sampleDeps [("kc.identity", JSON.object [("kc.i.un", JSON.string "alice")])])
        (pngRequest (bearerPrefix ++ [116])) =
      Outcome.ok { Thumbnail := [137, 80, 78, 71], Mimetype := "image/png" } := by
  refine ⟨?_, rfl, rfl, rfl, rfl⟩
  intro Resolution Encoder Token Image d req encoder henc hne hlen
  have hshort : req.Authorization.length < bearerPrefix.length := hlen
  simp [GetThumbnail, henc, hne, usernameFromAuthorization, hshort]

end svc

end Ocis
